import Mathlib

/-!
Shallow embedding of `src/prompttools/experiment/experiments/openai_chat_experiment.py`
(class `OpenAIChatExperiment`).

The class methods present in the source file — `__init__`, `_get_state`,
`_load_state`, `_validate_arg_key`, `run_partial` — are translated directly.
The base class `Experiment` (the execution queue, `_construct_result_dfs`,
`prepare`, and the initial state set up by `super().__init__()`) is part of
this repository but not of the source tree; those pieces are modelled from the
specification and each carries a doc comment saying so.

Conventions of the embedding:
* Python dicts are association lists in insertion order (`List (String × _)`);
  `d[k] = v`, `d[k].append(v)`, `del d[k]` become `setArg`, `updArg`,
  `removeArg`.
* Python exceptions become an error value (`PyErr`); a method that can raise
  returns `Except PyErr _`, and `run_partial` returns the state at the moment
  of the raise together with an optional error, because mutations made before
  a raise persist in Python.
* `pickle.dumps`/`pickle.loads` are modelled as the identity on the pickled
  tuple, which is represented as a `List StateElem` so that tuples of the
  wrong arity (Python `ValueError` on unpacking) are representable.
* Pandas dataframes are row-major tables (`DF`); `df[cols]` is `DF.project`,
  returning `none` where pandas raises `KeyError`.
* Numeric literals are modelled as integers (the int/float distinction is
  never inspected by this code); `float("inf")` is the distinguished value
  `Value.vInf` and `None` is `Value.vNone`.
-/

/-- Python values as far as this file inspects them: `None`, `float("inf")`,
strings, integers and booleans. Message lists, token dicts and raw API
responses are carried opaquely as such values. -/
inductive Value
  | vNone
  | vInf
  | vStr (s : String)
  | vInt (i : Int)
  | vBool (b : Bool)
deriving DecidableEq

/-- One keyword-argument set (a Python dict in insertion order): an
`ArgumentCombo` or the kwargs of one completion call. -/
abbrev Combo := List (String × Value)

/-- Python exceptions raised by the translated code. `executionFailure` stands
for whatever exception a failing completion call raises inside the queue. -/
inductive PyErr
  | runtimeError
  | indexError
  | keyError
  | valueError
  | typeError
  | promptExperimentException
  | executionFailure
deriving DecidableEq

deriving instance DecidableEq for Except

/-- Dict lookup `d[k]` returning `none` for a Python `KeyError` (first match,
as in a dict, whose keys are unique). -/
def lookupArg {α : Type} : List (String × α) → String → Option α
  | [], _ => none
  | (k', v) :: rest, k => if k' = k then some v else lookupArg rest k

/-- Dict assignment `d[k] = v`: replace the value at an existing key in place,
otherwise append the new key at the end (Python insertion order). -/
def setArg {α : Type} : List (String × α) → String → α → List (String × α)
  | [], k, v => [(k, v)]
  | (k', v') :: rest, k, v =>
      if k' = k then (k, v) :: rest else (k', v') :: setArg rest k v

/-- In-place `d[k].append(v)` on a dict of lists: the entry at the first
occurrence of `k` gets `v` appended; a missing key leaves the dict unchanged
(the source guards this by looking the key up first). -/
def updArg : List (String × List Value) → String → Value → List (String × List Value)
  | [], _, _ => []
  | (k', vs) :: rest, k, v =>
      if k' = k then (k', vs ++ [v]) :: rest else (k', vs) :: updArg rest k v

/-- Dict deletion `del d[k]`. -/
def removeArg {α : Type} : List (String × α) → String → List (String × α)
  | [], _ => []
  | (k', v) :: rest, k => if k' = k then rest else (k', v) :: removeArg rest k

/-- The explicit "not available" filler used by the modelled aggregator. -/
def naValue : Value := Value.vNone

/-- A pandas dataframe as the source uses one: an ordered list of column
names and row-major data (each row lists one value per column). -/
structure DF where
  colNames : List String
  rows : List (List Value)
deriving DecidableEq

/-- Column projection `df[names]` (used by `_load_state` on the restored full
table): `none` models the pandas `KeyError` raised when a requested column is
absent; otherwise the selected columns in the requested order, row count
unchanged. -/
def DF.project (df : DF) (names : List String) : Option DF :=
  if ∀ nm ∈ names, nm ∈ df.colNames then
    some ⟨names, df.rows.map (fun r =>
      names.map (fun nm => (lookupArg (df.colNames.zip r) nm).getD naValue))⟩
  else none

/-- Modelled from the spec: the Execution Queue of the base `Experiment` class
(spec section 4.2, not under the source tree): three parallel accumulators in
submission order. -/
structure RequestQueue where
  input_args : List Combo
  results : List Value
  latencies : List Value
deriving DecidableEq

/-- The completion-call collaborator (spec section 6): a synchronous callable
from the dispatched kwargs to a raw result and a measured latency, or `none`
when the call raises. -/
abbrev CompletionFn := Combo → Option (Value × Value)

/-- Modelled from the spec: `queue.enqueue(fn, kwargs)` (spec section 4.2) —
invoke the callable; on success append `(kwargs, result, latency)` to the
accumulators, on failure propagate the exception leaving the accumulators
exactly as they were. -/
def RequestQueue.enqueue (q : RequestQueue) (f : CompletionFn) (c : Combo) :
    Except RequestQueue RequestQueue :=
  match f c with
  | none => Except.error q
  | some rl => Except.ok ⟨q.input_args ++ [c], q.results ++ [rl.1], q.latencies ++ [rl.2]⟩

/-- The `for combo in partial_argument_combos: self.queue.enqueue(...)` loop of
`run_partial` (source lines 284-289): submit the combos in order; a failing
call aborts the loop and carries the queue state reached so far. -/
def enqueueAll (q : RequestQueue) (f : CompletionFn) : List Combo → Except RequestQueue RequestQueue
  | [] => Except.ok q
  | c :: cs =>
      match q.enqueue f c with
      | Except.error q' => Except.error q'
      | Except.ok q' => enqueueAll q' f cs

/-- The `state_params` dict built by `_get_state` (source lines 179-182). -/
structure StateParams where
  prompt_keys : List Value
  all_args : List (String × List Value)
deriving DecidableEq

/-- One component of the pickled state tuple. A tuple is a `List StateElem`,
so tuples of the wrong arity are representable (unpacking them raises
`ValueError` in Python). -/
inductive StateElem
  | name (s : String)
  | expId (s : Option String)
  | params (p : StateParams)
  | table (d : DF)
  | colNames (l : List String)
deriving DecidableEq

/-- The experiment instance state: the attributes of `OpenAIChatExperiment`
that the translated methods read or write. The completion callable and the
response extractor are collaborators passed to the operations instead of
being stored, so that states stay comparable values. -/
structure Exp where
  prompt_keys : List Value
  all_args : List (String × List Value)
  argument_combos : List Combo
  queue : RequestQueue
  full_df : DF
  partial_df : DF
  score_df : DF
  experiment_id : Option String
deriving DecidableEq

/-- `itertools.product(*lists)`: the first list varies slowest, the last
fastest; the product of no lists is one empty selection. -/
def product : List (List Value) → List (List Value)
  | [] => [[]]
  | l :: ls => (l.map (fun v => (product ls).map (fun vs => v :: vs))).flatten

/-- `[dict(zip(all_args, val)) for val in itertools.product(*all_args.values())]`
(source lines 278-280): the full Cartesian product of named argument combos. -/
def expandCombos (args : List (String × List Value)) : List Combo :=
  (product (args.map Prod.snd)).map (fun vs => (args.map Prod.fst).zip vs)

/-- The per-call sentinel filter of `run_partial` (source line 288):
`{k: v for k, v in combo.items() if (v is not None) and (v != float("inf"))}`. -/
def stripSentinels (c : Combo) : Combo :=
  c.filter (fun kv => decide (kv.2 ≠ Value.vNone ∧ kv.2 ≠ Value.vInf))

/-- First-seen-order union of the keys of the accumulated input kwargs (the
input column set of the full table). -/
def unionKeys (cs : List Combo) : List String :=
  cs.foldl (fun acc c => c.foldl (fun a kv => if kv.1 ∈ a then a else a ++ [kv.1]) acc) []

/-- Zip the three queue accumulators into execution records. -/
def zip3 {α β γ : Type} : List α → List β → List γ → List (α × β × γ)
  | a :: as', b :: bs', c :: cs' => (a, b, c) :: zip3 as' bs' cs'
  | _, _, _ => []

/-- Modelled from the spec: `_construct_result_dfs` of the base `Experiment`
class (spec section 4.3, not under the source tree). It rebuilds the `full`
table from the queue's accumulated parallel sequences — one row per execution
record: the input columns (first-seen order, missing entries filled with the
explicit "not available" marker), then the extracted response and the
latency — and re-derives the `partial` and `score` views from `full` by
column-name projection; with no score columns yet written, `partial` spans all
columns of `full` and `score` is the empty-column view over the same rows.
`ex` is the injected response-extraction capability. -/
def construct_result_dfs (e : Exp) (ex : Value → Value) : Exp :=
  let fullCols := unionKeys e.queue.input_args ++ ["response", "latency"]
  let fullRows := (zip3 e.queue.input_args e.queue.results e.queue.latencies).map
    (fun t => fullCols.map (fun col =>
      if col = "response" then ex t.2.1
      else if col = "latency" then t.2.2
      else (lookupArg t.1 col).getD naValue))
  let full : DF := ⟨fullCols, fullRows⟩
  { e with full_df := full,
           partial_df := (full.project fullCols).getD full,
           score_df := ⟨[], fullRows.map (fun _ => [])⟩ }

/-- Modelled from the spec: `prepare` of the base `Experiment` class (spec
section 4.1, not under the source tree) — recompute `argument_combos` from
`all_args` with the Argument Grid Expander. -/
def prepare (e : Exp) : Exp :=
  { e with argument_combos := expandCombos e.all_args }

/-- Tail of `run_partial` after the result tables are rebuilt (source lines
300-303): `if arg_value not in self.all_args[arg_name]` — which raises
`KeyError` when `arg_name` is not a stored parameter — then append the new
value and re-`prepare`. -/
def finishRun (e1 : Exp) (arg_name : String) (arg_value : Value) : Exp × Option PyErr :=
  match lookupArg e1.all_args arg_name with
  | none => (e1, some PyErr.keyError)
  | some vs =>
      if arg_value ∈ vs then (e1, none)
      else (prepare { e1 with all_args := updArg e1.all_args arg_name arg_value }, none)

/-- Body of `run_partial` for a named single argument (source lines 275-303):
deep-copy `all_args` with the named parameter replaced by the singleton list,
expand the Cartesian product, dispatch every combo through the sentinel filter
to the queue, raise `PromptExperimentException` when the result count did not
change, rebuild the result tables, and finally append a genuinely new value to
the stored parameter list. -/
def runPartialNamed (e : Exp) (arg_name : String) (arg_value : Value)
    (f : CompletionFn) (ex : Value → Value) : Exp × Option PyErr :=
  match enqueueAll e.queue f
      ((expandCombos (setArg e.all_args arg_name [arg_value])).map stripSentinels) with
  | Except.error q => ({ e with queue := q }, some PyErr.executionFailure)
  | Except.ok q =>
      if ((e.queue.results.length : Int) - (q.results.length : Int) = 0) then
        ({ e with queue := q }, some PyErr.promptExperimentException)
      else
        finishRun (construct_result_dfs { e with queue := q } ex) arg_name arg_value

/-- Translation of `run_partial` (source lines 260-303). More than one keyword
argument raises `RuntimeError("Not supported.")`; `list(kwargs.items())[0]`
raises `IndexError` on an empty kwargs dict; otherwise the single named
argument is run. The returned state is the instance state at the moment the
call returns or raises. -/
def run_partial (e : Exp) (kwargs : List (String × Value))
    (f : CompletionFn) (ex : Value → Value) : Exp × Option PyErr :=
  if kwargs.length > 1 then (e, some PyErr.runtimeError)
  else
    match kwargs with
    | [] => (e, some PyErr.indexError)
    | (arg_name, arg_value) :: _ => runPartialNamed e arg_name arg_value f ex

/-- Translation of `__init__` (source lines 94-158). The `DEBUG` mock
selection, the `PromptSelector` rendering branch and the Azure credential
writes touch external collaborators (environment, global client state) and
are outside the embedded instance state; the `azure` branch's effect on
`all_args` (delete `model`, add `engine`) is modelled. `messages[0]` raises
`IndexError` on an empty messages list. `logit_bias` is deleted from
`all_args` when it equals the default `[None]` (source lines 145-148). The
empty queue, empty tables and empty combo list are modelled from the spec as
the state set up by `super().__init__()`. -/
def init (model messages temperature top_p n stream stop max_tokens
    presence_penalty frequency_penalty logit_bias functions function_call : List Value)
    (azure : Bool) : Except PyErr Exp :=
  match messages with
  | [] => Except.error PyErr.indexError
  | _ :: _ =>
      let allArgs0 : List (String × List Value) :=
        [("model", model), ("messages", messages), ("temperature", temperature),
         ("functions", functions), ("function_call", function_call), ("top_p", top_p),
         ("n", n), ("stream", stream), ("stop", stop), ("max_tokens", max_tokens),
         ("presence_penalty", presence_penalty), ("frequency_penalty", frequency_penalty),
         ("logit_bias", logit_bias)]
      let allArgs1 :=
        if lookupArg allArgs0 "logit_bias" = some [Value.vNone]
        then removeArg allArgs0 "logit_bias" else allArgs0
      let allArgs2 :=
        if azure then removeArg allArgs1 "model" ++ [("engine", model)] else allArgs1
      Except.ok
        { prompt_keys := messages,
          all_args := allArgs2,
          argument_combos := [],
          queue := ⟨[], [], []⟩,
          full_df := ⟨[], []⟩,
          partial_df := ⟨[], []⟩,
          score_df := ⟨[], []⟩,
          experiment_id := none }

/-- `cls(all_args["model"], all_args["messages"])` as `_load_state` calls the
constructor: every other parameter at its default. -/
def initDefaults (model messages : List Value) : Except PyErr Exp :=
  init model messages [Value.vInt 1] [Value.vInt 1] [Value.vInt 1] [Value.vBool false]
    [Value.vNone] [Value.vInf] [Value.vInt 0] [Value.vInt 0] [Value.vNone]
    [Value.vNone] [Value.vNone] false

/-- The argument names `_validate_arg_key` (source lines 249-258) accepts: the
parameter names of `__init__` minus the `azure_openai_service_configs`
exception. The source defines this check but `run_partial` never invokes it. -/
def validArgNames : List String :=
  ["model", "messages", "temperature", "top_p", "n", "stream", "stop", "max_tokens",
   "presence_penalty", "frequency_penalty", "logit_bias", "functions", "function_call"]

/-- Translation of `_validate_arg_key` (source lines 249-258): an unknown
argument name raises `RuntimeError`. Dead code with respect to `run_partial`,
which never calls it. -/
def validate_arg_key (arg_name : String) : Except PyErr Unit :=
  if arg_name ∈ validArgNames then Except.ok () else Except.error PyErr.runtimeError

/-- Translation of `_get_state` (source lines 178-195): the pickled tuple
`(name, experiment_id, {prompt_keys, all_args}, full_df, partial column
names, score column names)` — six components. Pickling is modelled as the
identity on the tuple. -/
def get_state (e : Exp) (nm : String) : List StateElem :=
  [StateElem.name nm, StateElem.expId e.experiment_id,
   StateElem.params ⟨e.prompt_keys, e.all_args⟩,
   StateElem.table e.full_df,
   StateElem.colNames e.partial_df.colNames,
   StateElem.colNames e.score_df.colNames]

/-- Translation of `_load_state` (source lines 229-247): unpack the state as a
four-tuple (`ValueError` on any other arity), rebuild an instance with
`cls(all_args["model"], all_args["messages"])` (`KeyError` when either key is
missing), overwrite `prompt_keys`, `all_args` and the full table, then
re-derive the partial and score views by projecting the restored full table
onto the persisted column-name lists (`KeyError` when a persisted name is
absent from the full table), and store the supplied experiment id. -/
def load_state (state : List StateElem) (eid : String) : Except PyErr Exp :=
  match state with
  | [StateElem.params p, StateElem.table full, StateElem.colNames pcols, StateElem.colNames scols] =>
      (match lookupArg p.all_args "model", lookupArg p.all_args "messages" with
       | some model, some messages =>
           (match initDefaults model messages with
            | Except.error err => Except.error err
            | Except.ok exp0 =>
                (match full.project pcols, full.project scols with
                 | some pdf, some sdf =>
                     Except.ok { exp0 with
                       prompt_keys := p.prompt_keys,
                       all_args := p.all_args,
                       full_df := full,
                       partial_df := pdf,
                       score_df := sdf,
                       experiment_id := some eid }
                 | _, _ => Except.error PyErr.keyError))
       | _, _ => Except.error PyErr.keyError)
  | [_, _, _, _] => Except.error PyErr.typeError
  | _ => Except.error PyErr.valueError

/-- Whether a restore produced an experiment instance rather than raising. -/
def loadSucceeds (state : List StateElem) (eid : String) : Bool :=
  match load_state state eid with
  | Except.ok _ => true
  | Except.error _ => false

/-- The three result tables of a successful restore. -/
def loadedTables (r : Except PyErr Exp) : Option (DF × DF × DF) :=
  match r with
  | Except.ok e => some (e.full_df, e.partial_df, e.score_df)
  | Except.error _ => none

/-- The three views have one row per execution record position: equal row
counts across `full`, `partial` and `score`. -/
def rowsAlignedB (e : Exp) : Bool :=
  (e.partial_df.rows.length == e.full_df.rows.length) &&
  (e.score_df.rows.length == e.full_df.rows.length)

/-- The partial and score column lists partition the full column set: their
union covers it and they do not overlap. -/
def partitionB (pcols scols fcols : List String) : Bool :=
  fcols.all (fun c => decide (c ∈ pcols ∨ c ∈ scols)) &&
  pcols.all (fun c => decide (c ∈ fcols)) &&
  scols.all (fun c => decide (c ∈ fcols)) &&
  pcols.all (fun c => decide (c ∉ scols))

/-- The view invariant's column half, on an instance. -/
def colsPartitionB (e : Exp) : Bool :=
  partitionB e.partial_df.colNames e.score_df.colNames e.full_df.colNames

/-- Row alignment of the instance a restore produces (`true` when the restore
raises instead). -/
def restoredRowsAligned (state : List StateElem) (eid : String) : Bool :=
  match load_state state eid with
  | Except.ok e => rowsAlignedB e
  | Except.error _ => true

/-- Column partition of the instance a restore produces (`true` when the
restore raises instead). -/
def restoredColsPartition (state : List StateElem) (eid : String) : Bool :=
  match load_state state eid with
  | Except.ok e => colsPartitionB e
  | Except.error _ => true

/-! ### Concrete states used by counterexamples and witnesses -/

/-- A fixed message value (one conversation). -/
def msg : Value := Value.vStr "hello"

/-- The `all_args` dict `__init__` builds for a given model list, one message
and every other parameter at its default (the `logit_bias` entry already
deleted, as on source lines 145-148). -/
def allArgsFor (model : List Value) : List (String × List Value) :=
  [("model", model), ("messages", [msg]), ("temperature", [Value.vInt 1]),
   ("functions", [Value.vNone]), ("function_call", [Value.vNone]), ("top_p", [Value.vInt 1]),
   ("n", [Value.vInt 1]), ("stream", [Value.vBool false]), ("stop", [Value.vNone]),
   ("max_tokens", [Value.vInf]), ("presence_penalty", [Value.vInt 0]),
   ("frequency_penalty", [Value.vInt 0])]

/-- A freshly constructed experiment over models `m1`, `m2`. -/
def e5init : Exp :=
  { prompt_keys := [msg],
    all_args := allArgsFor [Value.vStr "m1", Value.vStr "m2"],
    argument_combos := [],
    queue := ⟨[], [], []⟩,
    full_df := ⟨[], []⟩,
    partial_df := ⟨[], []⟩,
    score_df := ⟨[], []⟩,
    experiment_id := none }

/-- An always-succeeding completion collaborator with a fixed response and
latency. -/
def cf : CompletionFn := fun _ => some (Value.vStr "response", Value.vInt 0)

/-- The identity response extractor (results are already plain text). -/
def sid : Value → Value := fun v => v

/-- The prior experiment of Scenario C: the fresh two-model experiment after
its initial full run — both grid combos dispatched through the sentinel
filter and the result tables built. -/
def e5 : Exp :=
  match enqueueAll e5init.queue cf ((expandCombos e5init.all_args).map stripSentinels) with
  | Except.ok q => construct_result_dfs { e5init with queue := q } sid
  | Except.error q => construct_result_dfs { e5init with queue := q } sid

/-- An experiment whose stored `messages` list is empty, so that a partial
run expands to zero combos. -/
def e3 : Exp :=
  { e5init with all_args := setArg (allArgsFor [Value.vStr "m1"]) "messages" [] }

/-- State params carrying a well-formed configuration (used by the restore
counterexamples). -/
def p7 : StateParams := ⟨[msg], allArgsFor [Value.vStr "m1"]⟩

/-- A two-column, one-row full table. -/
def full7 : DF := ⟨["a", "b"], [[Value.vInt 1, Value.vInt 2]]⟩

/-- A persisted state whose partial and score column lists both name `a`:
they overlap and do not cover column `b`. -/
def st7 : List StateElem :=
  [StateElem.params p7, StateElem.table full7, StateElem.colNames ["a"], StateElem.colNames ["a"]]

/-- The dispatched (post-filter) combo for model `m3` in Scenario C. -/
def comboC : Combo :=
  [("model", Value.vStr "m3"), ("messages", msg), ("temperature", Value.vInt 1),
   ("top_p", Value.vInt 1), ("n", Value.vInt 1), ("stream", Value.vBool false),
   ("presence_penalty", Value.vInt 0), ("frequency_penalty", Value.vInt 0)]

/-! ### Helper lemmas -/

theorem lookupArg_setArg_ne {α : Type} (l : List (String × α)) (k k' : String) (v : α)
    (h : k' ≠ k) : lookupArg (setArg l k v) k' = lookupArg l k' := by
  induction l with
  | nil =>
    simp only [setArg, lookupArg]
    rw [if_neg (Ne.symm h)]
  | cons hd tl ih =>
    obtain ⟨a, b⟩ := hd
    by_cases hak : a = k
    · subst hak
      simp only [setArg, if_pos rfl, lookupArg]
      rw [if_neg (Ne.symm h), if_neg (Ne.symm h)]
    · simp only [setArg, if_neg hak, lookupArg]
      by_cases hak' : a = k'
      · rw [if_pos hak', if_pos hak']
      · rw [if_neg hak', if_neg hak', ih]

theorem lookupArg_updArg_self (l : List (String × List Value)) (k : String) (v : Value)
    (vs : List Value) (h : lookupArg l k = some vs) :
    lookupArg (updArg l k v) k = some (vs ++ [v]) := by
  induction l with
  | nil => simp [lookupArg] at h
  | cons hd tl ih =>
    obtain ⟨a, b⟩ := hd
    by_cases hak : a = k
    · simp only [lookupArg, if_pos hak] at h
      simp only [updArg, if_pos hak, lookupArg, if_pos hak]
      rw [Option.some.inj h]
    · simp only [lookupArg, if_neg hak] at h
      simp only [updArg, if_neg hak, lookupArg, if_neg hak]
      exact ih h

theorem lookupArg_updArg_ne (l : List (String × List Value)) (k k' : String) (v : Value)
    (h : k' ≠ k) : lookupArg (updArg l k v) k' = lookupArg l k' := by
  induction l with
  | nil => rfl
  | cons hd tl ih =>
    obtain ⟨a, b⟩ := hd
    by_cases hak : a = k
    · simp only [updArg, if_pos hak, lookupArg]
      have hk' : a ≠ k' := fun hh => h (hh ▸ hak)
      rw [if_neg hk', if_neg hk']
    · simp only [updArg, if_neg hak, lookupArg]
      by_cases hak' : a = k'
      · rw [if_pos hak', if_pos hak']
      · rw [if_neg hak', if_neg hak', ih]

theorem enqueueAll_ok (f : CompletionFn) :
    ∀ (cs : List Combo) (q q' : RequestQueue), enqueueAll q f cs = Except.ok q' →
      q'.results.length = q.results.length + cs.length ∧
      ∃ t, q'.input_args = q.input_args ++ t ∧ ∀ c ∈ t, c ∈ cs := by
  intro cs
  induction cs with
  | nil =>
    intro q q' h
    simp only [enqueueAll, Except.ok.injEq] at h
    subst h
    exact ⟨rfl, [], (List.append_nil _).symm, fun c hc => absurd hc (List.not_mem_nil c)⟩
  | cons c cs ih =>
    intro q q' h
    simp only [enqueueAll] at h
    cases henq : q.enqueue f c with
    | error q1 => rw [henq] at h; simp at h
    | ok q1 =>
      rw [henq] at h
      have h' : enqueueAll q1 f cs = Except.ok q' := h
      obtain ⟨hlen, t, hinp, hmem⟩ := ih q1 q' h'
      unfold RequestQueue.enqueue at henq
      cases hfc : f c with
      | none => rw [hfc] at henq; simp at henq
      | some rl =>
        rw [hfc] at henq
        have h2 : Except.ok (RequestQueue.mk (q.input_args ++ [c]) (q.results ++ [rl.1])
            (q.latencies ++ [rl.2])) = Except.ok q1 := henq
        have hq1 := (Except.ok.inj h2).symm
        subst hq1
        constructor
        · rw [hlen]; simp [List.length_append]; omega
        · refine ⟨c :: t, by rw [hinp]; simp, ?_⟩
          intro x hx
          rcases List.mem_cons.mp hx with rfl | hx
          · exact List.mem_cons_self _ _
          · exact List.mem_cons_of_mem _ (hmem x hx)

theorem enqueueAll_err (f : CompletionFn) :
    ∀ (cs : List Combo) (q q' : RequestQueue), enqueueAll q f cs = Except.error q' →
      ∃ t, q'.input_args = q.input_args ++ t ∧ ∀ c ∈ t, c ∈ cs := by
  intro cs
  induction cs with
  | nil => intro q q' h; simp [enqueueAll] at h
  | cons c cs ih =>
    intro q q' h
    simp only [enqueueAll] at h
    cases henq : q.enqueue f c with
    | error q1 =>
      rw [henq] at h
      have h2 : Except.error (ε := RequestQueue) (α := RequestQueue) q1 = Except.error q' := h
      have hq1 := Except.error.inj h2
      unfold RequestQueue.enqueue at henq
      cases hfc : f c with
      | some rl => rw [hfc] at henq; simp at henq
      | none =>
        rw [hfc] at henq
        have hq : q = q1 := Except.error.inj henq
        subst hq1; subst hq
        exact ⟨[], (List.append_nil _).symm, fun x hx => absurd hx (List.not_mem_nil x)⟩
    | ok q1 =>
      rw [henq] at h
      have h' : enqueueAll q1 f cs = Except.error q' := h
      obtain ⟨t, hinp, hmem⟩ := ih q1 q' h'
      unfold RequestQueue.enqueue at henq
      cases hfc : f c with
      | none => rw [hfc] at henq; simp at henq
      | some rl =>
        rw [hfc] at henq
        have h2 : Except.ok (RequestQueue.mk (q.input_args ++ [c]) (q.results ++ [rl.1])
            (q.latencies ++ [rl.2])) = Except.ok q1 := henq
        have hq1 := (Except.ok.inj h2).symm
        subst hq1
        refine ⟨c :: t, by rw [hinp]; simp, ?_⟩
        intro x hx
        rcases List.mem_cons.mp hx with rfl | hx
        · exact List.mem_cons_self _ _
        · exact List.mem_cons_of_mem _ (hmem x hx)

theorem sentinelFree_of_mem_strip (cs : List Combo) (c : Combo)
    (hc : c ∈ cs.map stripSentinels) :
    ∀ kv ∈ c, kv.2 ≠ Value.vNone ∧ kv.2 ≠ Value.vInf := by
  obtain ⟨c0, hc0, rfl⟩ := List.mem_map.mp hc
  intro kv hkv
  exact of_decide_eq_true (List.mem_filter.mp hkv).2

theorem project_rows_length (df : DF) (names : List String) (d : DF)
    (h : df.project names = some d) : d.rows.length = df.rows.length := by
  unfold DF.project at h
  split at h
  · rw [← Option.some.inj h]
    exact List.length_map _ _
  · simp at h

theorem project_colNames (df : DF) (names : List String) (d : DF)
    (h : df.project names = some d) : d.colNames = names := by
  unfold DF.project at h
  split at h
  · rw [← Option.some.inj h]
  · simp at h

theorem project_none_of_missing (df : DF) (names : List String) (c : String)
    (hc : c ∈ names) (hnc : c ∉ df.colNames) : df.project names = none := by
  unfold DF.project
  rw [if_neg]
  intro hall
  exact hnc (hall c hc)

theorem run_partial_single (e : Exp) (k : String) (v : Value) (f : CompletionFn)
    (ex : Value → Value) : run_partial e [(k, v)] f ex = runPartialNamed e k v f ex := rfl

theorem finishRun_none (e1 : Exp) (k : String) (v : Value)
    (h : lookupArg e1.all_args k = none) :
    finishRun e1 k v = (e1, some PyErr.keyError) := by
  unfold finishRun
  rw [h]

theorem finishRun_mem (e1 : Exp) (k : String) (v : Value) (vs : List Value)
    (h : lookupArg e1.all_args k = some vs) (hv : v ∈ vs) :
    finishRun e1 k v = (e1, none) := by
  unfold finishRun
  rw [h]
  simp only [if_pos hv]

theorem finishRun_new (e1 : Exp) (k : String) (v : Value) (vs : List Value)
    (h : lookupArg e1.all_args k = some vs) (hv : v ∉ vs) :
    finishRun e1 k v = (prepare { e1 with all_args := updArg e1.all_args k v }, none) := by
  unfold finishRun
  rw [h]
  simp only [if_neg hv]

theorem finishRun_queue (e1 : Exp) (k : String) (v : Value) :
    (finishRun e1 k v).1.queue = e1.queue := by
  unfold finishRun
  split
  · rfl
  · split
    · rfl
    · rfl

theorem finishRun_snd (e1 : Exp) (k : String) (v : Value) :
    (finishRun e1 k v).2 = none ∨ (finishRun e1 k v).2 = some PyErr.keyError := by
  unfold finishRun
  split
  · exact Or.inr rfl
  · split
    · exact Or.inl rfl
    · exact Or.inl rfl

theorem runNamed_eq_err (e : Exp) (k : String) (v : Value) (f : CompletionFn)
    (ex : Value → Value) (q : RequestQueue)
    (herr : enqueueAll e.queue f
      ((expandCombos (setArg e.all_args k [v])).map stripSentinels) = Except.error q) :
    runPartialNamed e k v f ex = ({ e with queue := q }, some PyErr.executionFailure) := by
  unfold runPartialNamed
  rw [herr]

theorem runNamed_eq_ok (e : Exp) (k : String) (v : Value) (f : CompletionFn)
    (ex : Value → Value) (q : RequestQueue)
    (hok : enqueueAll e.queue f
      ((expandCombos (setArg e.all_args k [v])).map stripSentinels) = Except.ok q) :
    runPartialNamed e k v f ex =
      if ((e.queue.results.length : Int) - (q.results.length : Int) = 0) then
        ({ e with queue := q }, some PyErr.promptExperimentException)
      else finishRun (construct_result_dfs { e with queue := q } ex) k v := by
  unfold runPartialNamed
  rw [hok]

theorem runNamed_inputs (e : Exp) (k : String) (v : Value) (f : CompletionFn)
    (ex : Value → Value) :
    ∃ t, (runPartialNamed e k v f ex).1.queue.input_args = e.queue.input_args ++ t ∧
      ∀ c ∈ t, c ∈ (expandCombos (setArg e.all_args k [v])).map stripSentinels := by
  cases henq : enqueueAll e.queue f
      ((expandCombos (setArg e.all_args k [v])).map stripSentinels) with
  | error q =>
    rw [runNamed_eq_err e k v f ex q henq]
    exact enqueueAll_err f _ e.queue q henq
  | ok q =>
    rw [runNamed_eq_ok e k v f ex q henq]
    obtain ⟨-, t, h1, h2⟩ := enqueueAll_ok f _ e.queue q henq
    by_cases hz : ((e.queue.results.length : Int) - (q.results.length : Int) = 0)
    · rw [if_pos hz]
      exact ⟨t, h1, h2⟩
    · rw [if_neg hz]
      refine ⟨t, ?_, h2⟩
      rw [finishRun_queue]
      exact h1

theorem runNamed_args_spec (e : Exp) (k : String) (v : Value) (f : CompletionFn)
    (ex : Value → Value) :
    ((runPartialNamed e k v f ex).2 = none →
       (runPartialNamed e k v f ex).1.all_args =
         (match lookupArg e.all_args k with
          | none => e.all_args
          | some vs => if v ∈ vs then e.all_args else updArg e.all_args k v)) ∧
    ((runPartialNamed e k v f ex).2 ≠ none →
       (runPartialNamed e k v f ex).1.all_args = e.all_args) := by
  cases henq : enqueueAll e.queue f
      ((expandCombos (setArg e.all_args k [v])).map stripSentinels) with
  | error q =>
    rw [runNamed_eq_err e k v f ex q henq]
    exact ⟨fun h => by simp at h, fun _ => rfl⟩
  | ok q =>
    rw [runNamed_eq_ok e k v f ex q henq]
    by_cases hz : ((e.queue.results.length : Int) - (q.results.length : Int) = 0)
    · rw [if_pos hz]
      exact ⟨fun h => by simp at h, fun _ => rfl⟩
    · rw [if_neg hz]
      have hargs : (construct_result_dfs { e with queue := q } ex).all_args = e.all_args := rfl
      constructor
      · intro h2
        cases hlk : lookupArg e.all_args k with
        | none =>
          have hlk' : lookupArg (construct_result_dfs { e with queue := q } ex).all_args k
              = none := by rw [hargs]; exact hlk
          rw [finishRun_none _ _ v hlk']
          simp only [hlk]
          exact hargs
        | some vs =>
          by_cases hv : v ∈ vs
          · have hlk' : lookupArg (construct_result_dfs { e with queue := q } ex).all_args k
                = some vs := by rw [hargs]; exact hlk
            rw [finishRun_mem _ _ _ _ hlk' hv]
            simp only [hlk, if_pos hv]
            exact hargs
          · have hlk' : lookupArg (construct_result_dfs { e with queue := q } ex).all_args k
                = some vs := by rw [hargs]; exact hlk
            rw [finishRun_new _ _ _ _ hlk' hv]
            simp only [hlk, if_neg hv]
            show updArg (construct_result_dfs { e with queue := q } ex).all_args k v
              = updArg e.all_args k v
            rw [hargs]
      · intro h2
        cases hlk : lookupArg (construct_result_dfs { e with queue := q } ex).all_args k with
        | none =>
          rw [finishRun_none _ _ v hlk]
          exact hargs
        | some vs =>
          by_cases hv : v ∈ vs
          · rw [finishRun_mem _ _ _ _ hlk hv]
            exact hargs
          · rw [finishRun_new _ _ _ _ hlk hv] at h2
            exact absurd rfl h2

theorem load_state_ok_inv (p : StateParams) (full : DF) (pcols scols : List String)
    (eid : String) (e' : Exp)
    (h : load_state [StateElem.params p, StateElem.table full,
        StateElem.colNames pcols, StateElem.colNames scols] eid = Except.ok e') :
    e'.full_df = full ∧ full.project pcols = some e'.partial_df ∧
    full.project scols = some e'.score_df := by
  cases hm : lookupArg p.all_args "model" with
  | none => simp [load_state, hm] at h
  | some model =>
    cases hmsg : lookupArg p.all_args "messages" with
    | none => simp [load_state, hm, hmsg] at h
    | some messages =>
      cases hinit : initDefaults model messages with
      | error err => simp [load_state, hm, hmsg, hinit] at h
      | ok exp0 =>
        cases hpd : full.project pcols with
        | none => simp [load_state, hm, hmsg, hinit, hpd] at h
        | some pdf =>
          cases hsd : full.project scols with
          | none => simp [load_state, hm, hmsg, hinit, hpd, hsd] at h
          | some sdf =>
            simp only [load_state, hm, hmsg, hinit, hpd, hsd, Except.ok.injEq] at h
            rw [← h]
            exact ⟨rfl, rfl, rfl⟩

/-! ### Claim theorems -/

/-- C8: `run_partial` rejects more than one changed parameter per call — any
invocation with two or more keyword arguments raises `RuntimeError` before
executing any combo or mutating any state (the returned state is the input
state unchanged). -/
theorem c8_multi_param_rejected (e : Exp) (kwargs : List (String × Value))
    (f : CompletionFn) (ex : Value → Value) (h : kwargs.length > 1) :
    run_partial e kwargs f ex = (e, some PyErr.runtimeError) := by
  unfold run_partial
  rw [if_pos h]

/-- Witness for C8 at a concrete two-argument call. -/
theorem c8_multi_param_rejected_witness :
    run_partial e5init [("model", Value.vStr "m3"), ("n", Value.vInt 2)] cf sid
      = (e5init, some PyErr.runtimeError) :=
  c8_multi_param_rejected e5init [("model", Value.vStr "m3"), ("n", Value.vInt 2)] cf sid
    (by decide)

/-- C9: calling `run_partial` with zero keyword arguments is not caught by the
`len(kwargs) > 1` guard; `list(kwargs.items())[0]` then raises `IndexError`
(an out-of-bounds access rather than a descriptive configuration error),
before any state is mutated — the returned state is the input state. -/
theorem c9_empty_kwargs_index_error (e : Exp) (f : CompletionFn) (ex : Value → Value) :
    run_partial e [] f ex = (e, some PyErr.indexError) := rfl

/-- C4 (code bug): an unknown parameter name passed to `run_partial` is not
rejected immediately — `_validate_arg_key` exists for exactly this check but
`run_partial` never calls it. On a fresh two-model experiment,
`run_partial(bogus="x")` executes both expanded combos (the queue gains two
records), rebuilds the result tables (two rows appended to the full table),
and only then raises `KeyError` at `self.all_args[arg_name]`; the unknown name
is itself rejected by the never-invoked validator. -/
theorem c4_unknown_arg_mutates_then_raises :
    ( run_partial e5init [("bogus", Value.vStr "x")] cf sid).2 = some PyErr.keyError
    ∧ ( run_partial e5init [("bogus", Value.vStr "x")] cf sid).1.queue.input_args.length
        = e5init.queue.input_args.length + 2
    ∧ ( run_partial e5init [("bogus", Value.vStr "x")] cf sid).1.full_df.rows.length = 2
    ∧ validate_arg_key "bogus" = Except.error PyErr.runtimeError := by
  decide

/-- C5 (Scenario C): against a prior experiment with model list `[m1, m2]` and
every other parameter a single-value list, `run_partial(model="m3")` completes
without error, dispatches exactly one new combo, appends exactly one row to
the full table, and afterwards the stored model parameter list is
`[m1, m2, m3]`. -/
theorem c5_scenario_c :
    ( run_partial e5 [("model", Value.vStr "m3")] cf sid).2 = none
    ∧ e5.queue.input_args.length = 2
    ∧ ( run_partial e5 [("model", Value.vStr "m3")] cf sid).1.queue.input_args.length
        = e5.queue.input_args.length + 1
    ∧ ( run_partial e5 [("model", Value.vStr "m3")] cf sid).1.full_df.rows.length
        = e5.full_df.rows.length + 1
    ∧ lookupArg ( run_partial e5 [("model", Value.vStr "m3")] cf sid).1.all_args "model"
        = some [Value.vStr "m1", Value.vStr "m2", Value.vStr "m3"] := by
  decide

/-- C1 counterexample: feeding the six-component tuple produced by
`_get_state` directly to `_load_state` raises a `ValueError` — `_load_state`
unpacks a four-component tuple, so the literal composition
`_load_state(_get_state(name))` never restores anything. -/
theorem c1_direct_roundtrip_fails :
    load_state (get_state e5 "snap") "id" = Except.error PyErr.valueError := by
  decide

/-- C7 counterexample: a restorable state whose persisted partial and score
column lists both name `a` over a full table with columns `a`, `b` — the
restore succeeds, yet the restored views' columns overlap and do not cover
the full column set, so the partition half of the view invariant fails. -/
theorem c7_partition_counterexample :
    loadSucceeds st7 "id" = true ∧ restoredColsPartition st7 "id" = false := by
  decide

/-- C2: every argument combo submitted by `run_partial` passes through the
per-call sentinel filter, so no entry whose value is `None` or `float("inf")`
ever appears in the kwargs dispatched to the completion call (the combos newly
appended to the queue's input accumulators); and the stripping never removes
values from the experiment's stored parameter lists — each stored list is left
as it was, except that the run may append the single new argument value. -/
theorem c2_sentinels_stripped (e : Exp) (k : String) (v : Value) (f : CompletionFn)
    (ex : Value → Value) :
    (∀ c ∈ (( run_partial e [(k, v)] f ex).1.queue.input_args).drop
        e.queue.input_args.length,
        ∀ kv ∈ c, kv.2 ≠ Value.vNone ∧ kv.2 ≠ Value.vInf) ∧
    (∀ key vs, lookupArg e.all_args key = some vs →
        lookupArg ( run_partial e [(k, v)] f ex).1.all_args key = some vs ∨
        lookupArg ( run_partial e [(k, v)] f ex).1.all_args key = some (vs ++ [v])) := by
  rw [run_partial_single]
  constructor
  · obtain ⟨t, h1, h2⟩ := runNamed_inputs e k v f ex
    rw [h1, List.drop_left]
    intro c hc
    exact sentinelFree_of_mem_strip _ c (h2 c hc)
  · intro key vs hkey
    obtain ⟨hnone, hsome⟩ := runNamed_args_spec e k v f ex
    by_cases h2 : (runPartialNamed e k v f ex).2 = none
    · have hres := hnone h2
      by_cases hkk : key = k
      · subst hkk
        rw [hkey] at hres
        simp only [] at hres
        by_cases hv : v ∈ vs
        · rw [if_pos hv] at hres
          rw [hres]
          exact Or.inl hkey
        · rw [if_neg hv] at hres
          rw [hres]
          exact Or.inr (lookupArg_updArg_self e.all_args key v vs hkey)
      · cases hlk : lookupArg e.all_args k with
        | none =>
          rw [hlk] at hres
          simp only [] at hres
          rw [hres]
          exact Or.inl hkey
        | some vs' =>
          rw [hlk] at hres
          simp only [] at hres
          by_cases hv : v ∈ vs'
          · rw [if_pos hv] at hres
            rw [hres]
            exact Or.inl hkey
          · rw [if_neg hv] at hres
            rw [hres, lookupArg_updArg_ne e.all_args k key v hkk]
            exact Or.inl hkey
    · rw [hsome h2]
      exact Or.inl hkey

/-- Witness for C2: in Scenario C the dispatched model entry is sentinel-free
and the stored temperature list survives the run (unchanged or extended). -/
theorem c2_sentinels_stripped_witness :
    ((("model", Value.vStr "m3") : String × Value).2 ≠ Value.vNone ∧
     (("model", Value.vStr "m3") : String × Value).2 ≠ Value.vInf) ∧
    (lookupArg ( run_partial e5 [("model", Value.vStr "m3")] cf sid).1.all_args "temperature"
        = some [Value.vInt 1] ∨
     lookupArg ( run_partial e5 [("model", Value.vStr "m3")] cf sid).1.all_args "temperature"
        = some ([Value.vInt 1] ++ [Value.vStr "m3"])) :=
  ⟨(c2_sentinels_stripped e5 "model" (Value.vStr "m3") cf sid).1 comboC (by decide)
      ("model", Value.vStr "m3") (by decide),
   (c2_sentinels_stripped e5 "model" (Value.vStr "m3") cf sid).2 "temperature"
      [Value.vInt 1] (by decide)⟩

/-- C3: when executing all partial combos adds strictly zero new execution
records, `run_partial` raises `PromptExperimentException` instead of returning
successfully and the previously accumulated state — queue records included —
is returned intact; when at least one new record was produced, that exception
is not raised. -/
theorem c3_no_progress_exception (e : Exp) (k : String) (v : Value) (f : CompletionFn)
    (ex : Value → Value) (q' : RequestQueue)
    (hok : enqueueAll e.queue f
      ((expandCombos (setArg e.all_args k [v])).map stripSentinels) = Except.ok q') :
    (q'.results.length = e.queue.results.length →
        run_partial e [(k, v)] f ex = (e, some PyErr.promptExperimentException)) ∧
    (e.queue.results.length < q'.results.length →
        ( run_partial e [(k, v)] f ex).2 ≠ some PyErr.promptExperimentException) := by
  constructor
  · intro hlen
    obtain ⟨hl, t, -, -⟩ := enqueueAll_ok f _ e.queue q' hok
    have hcs : ((expandCombos (setArg e.all_args k [v])).map stripSentinels) = [] := by
      apply List.length_eq_zero.mp
      omega
    have hok2 := hok
    rw [hcs] at hok2
    have hq : q' = e.queue := by
      simp only [enqueueAll, Except.ok.injEq] at hok2
      exact hok2.symm
    rw [run_partial_single, runNamed_eq_ok e k v f ex q' hok, if_pos (by omega), hq]
  · intro hlt
    rw [run_partial_single, runNamed_eq_ok e k v f ex q' hok, if_neg (by omega)]
    rcases finishRun_snd (construct_result_dfs { e with queue := q' } ex) k v with hsnd | hsnd <;>
      rw [hsnd] <;> simp

/-- Witness for C3: an experiment whose stored `messages` list is empty
expands to zero combos, so the partial run adds zero records and raises the
no-progress exception with the state unchanged. -/
theorem c3_no_progress_exception_witness :
    run_partial e3 [("model", Value.vStr "m3")] cf sid
      = (e3, some PyErr.promptExperimentException) :=
  (c3_no_progress_exception e3 "model" (Value.vStr "m3") cf sid e3.queue rfl).1 rfl

/-- C10: a `run_partial` call leaves the stored `all_args` entirely unchanged
except for at most one mutation — on a run that completes without raising,
the named parameter's list gains the argument value appended at the end if
and only if that value was not already in the list; every other parameter's
list is never modified, and a run that raises leaves `all_args` untouched. -/
theorem c10_all_args_frame (e : Exp) (k : String) (v : Value) (f : CompletionFn)
    (ex : Value → Value) :
    (∀ key, key ≠ k →
        lookupArg ( run_partial e [(k, v)] f ex).1.all_args key = lookupArg e.all_args key) ∧
    (( run_partial e [(k, v)] f ex).2 = none →
        lookupArg ( run_partial e [(k, v)] f ex).1.all_args k =
          (lookupArg e.all_args k).map (fun vs => if v ∈ vs then vs else vs ++ [v])) ∧
    (( run_partial e [(k, v)] f ex).2 ≠ none →
        ( run_partial e [(k, v)] f ex).1.all_args = e.all_args) := by
  rw [run_partial_single]
  obtain ⟨hnone, hsome⟩ := runNamed_args_spec e k v f ex
  refine ⟨?_, ?_, hsome⟩
  · intro key hkey
    by_cases h2 : (runPartialNamed e k v f ex).2 = none
    · have hres := hnone h2
      cases hlk : lookupArg e.all_args k with
      | none =>
        rw [hlk] at hres
        simp only [] at hres
        rw [hres]
      | some vs =>
        rw [hlk] at hres
        simp only [] at hres
        by_cases hv : v ∈ vs
        · rw [if_pos hv] at hres
          rw [hres]
        · rw [if_neg hv] at hres
          rw [hres]
          exact lookupArg_updArg_ne e.all_args k key v hkey
    · rw [hsome h2]
  · intro h2
    have hres := hnone h2
    cases hlk : lookupArg e.all_args k with
    | none =>
      rw [hlk] at hres
      simp only [] at hres
      rw [hres, hlk]
      rfl
    | some vs =>
      rw [hlk] at hres
      simp only [] at hres
      by_cases hv : v ∈ vs
      · rw [if_pos hv] at hres
        rw [hres, hlk]
        simp [hv]
      · rw [if_neg hv] at hres
        rw [hres, lookupArg_updArg_self e.all_args k v vs hlk]
        simp [hv]

/-- Witness for C10 in Scenario C: the temperature list is untouched and the
model list gains `m3`, which was not present before. -/
theorem c10_all_args_frame_witness :
    lookupArg ( run_partial e5 [("model", Value.vStr "m3")] cf sid).1.all_args "temperature"
      = lookupArg e5.all_args "temperature" ∧
    lookupArg ( run_partial e5 [("model", Value.vStr "m3")] cf sid).1.all_args "model"
      = (lookupArg e5.all_args "model").map
          (fun vs => if Value.vStr "m3" ∈ vs then vs else vs ++ [Value.vStr "m3"]) :=
  ⟨(c10_all_args_frame e5 "model" (Value.vStr "m3") cf sid).1 "temperature" (by decide),
   (c10_all_args_frame e5 "model" (Value.vStr "m3") cf sid).2.1 (by decide)⟩

/-- C1 (amended): the direct composition `_load_state(_get_state(name))` fails
— see the counterexample — because `_get_state` produces a six-component tuple
while `_load_state` unpacks four; once the leading name and experiment-id
components are dropped (as the persistence collaborator's save/load cycle
does), restoring the snapshot yields an experiment whose full, partial and
score tables are equal, row for row and column for column, to the originals,
for any state whose partial and score tables are the projections of the full
table onto their own column names and whose stored configuration still has a
`model` entry and a non-empty `messages` entry. -/
theorem c1_roundtrip_amended (e : Exp) (nm eid : String) (model messages : List Value)
    (hm : lookupArg e.all_args "model" = some model)
    (hmsg : lookupArg e.all_args "messages" = some messages)
    (hne : messages ≠ [])
    (hp : e.full_df.project e.partial_df.colNames = some e.partial_df)
    (hs : e.full_df.project e.score_df.colNames = some e.score_df) :
    loadedTables (load_state ((get_state e nm).drop 2) eid)
      = some (e.full_df, e.partial_df, e.score_df) := by
  have hdrop : (get_state e nm).drop 2 =
      [StateElem.params ⟨e.prompt_keys, e.all_args⟩, StateElem.table e.full_df,
       StateElem.colNames e.partial_df.colNames, StateElem.colNames e.score_df.colNames] := rfl
  rw [hdrop]
  obtain ⟨m0, mrest, rfl⟩ : ∃ m0 mrest, messages = m0 :: mrest := by
    cases messages with
    | nil => exact absurd rfl hne
    | cons a b => exact ⟨a, b, rfl⟩
  obtain ⟨exp0, hinit⟩ : ∃ exp0, initDefaults model (m0 :: mrest) = Except.ok exp0 := ⟨_, rfl⟩
  simp only [load_state, hm, hmsg, hinit, hp, hs, loadedTables]

/-- Witness for C1's amended round trip at the concrete Scenario C state. -/
theorem c1_roundtrip_amended_witness :
    loadedTables (load_state ((get_state e5 "snap").drop 2) "eid")
      = some (e5.full_df, e5.partial_df, e5.score_df) :=
  c1_roundtrip_amended e5 "snap" "eid" [Value.vStr "m1", Value.vStr "m2"] [msg]
    (by decide) (by decide) (by decide) (by decide) (by decide)

/-- C6: restoring a persisted state whose partial or score column-name list
references a column absent from the restored full table raises (the pandas
`KeyError` playing the StateCorrupt role) instead of producing an experiment
with inconsistent views. -/
theorem c6_restore_missing_column (p : StateParams) (full : DF) (pcols scols : List String)
    (eid : String) (c : String)
    (h : (c ∈ pcols ∨ c ∈ scols) ∧ c ∉ full.colNames) :
    loadSucceeds [StateElem.params p, StateElem.table full,
      StateElem.colNames pcols, StateElem.colNames scols] eid = false := by
  unfold loadSucceeds
  cases hl : load_state [StateElem.params p, StateElem.table full,
      StateElem.colNames pcols, StateElem.colNames scols] eid with
  | error err => rfl
  | ok e' =>
    exfalso
    obtain ⟨-, hpd, hsd⟩ := load_state_ok_inv p full pcols scols eid e' hl
    rcases h.1 with hc | hc
    · rw [project_none_of_missing full pcols c hc h.2] at hpd
      exact Option.noConfusion hpd
    · rw [project_none_of_missing full scols c hc h.2] at hsd
      exact Option.noConfusion hsd

/-- Witness for C6: a partial column list naming `zz`, which the full table
lacks, makes the restore fail. -/
theorem c6_restore_missing_column_witness :
    loadSucceeds [StateElem.params p7, StateElem.table full7,
      StateElem.colNames ["zz"], StateElem.colNames []] "id" = false :=
  c6_restore_missing_column p7 full7 ["zz"] [] "id" "zz" (by decide)

/-- C7 (amended): after any successful restore the three views have equal row
counts (rows are identified positionally by the shared projection); the
column-partition half of the view invariant holds for the restored views
whenever the persisted partial and score column lists partition the full
table's columns — as they do for snapshots of experiments satisfying the
invariant — but `_load_state` does not reject persisted lists that fail to
partition, so the partition half can fail after a restore (see the
counterexample). -/
theorem c7_view_invariant_amended (p : StateParams) (full : DF) (pcols scols : List String)
    (eid : String) :
    restoredRowsAligned [StateElem.params p, StateElem.table full,
      StateElem.colNames pcols, StateElem.colNames scols] eid = true ∧
    (partitionB pcols scols full.colNames = true →
       restoredColsPartition [StateElem.params p, StateElem.table full,
         StateElem.colNames pcols, StateElem.colNames scols] eid = true) := by
  constructor
  · unfold restoredRowsAligned
    cases hl : load_state [StateElem.params p, StateElem.table full,
        StateElem.colNames pcols, StateElem.colNames scols] eid with
    | error err => rfl
    | ok e' =>
      obtain ⟨hf, hpd, hsd⟩ := load_state_ok_inv p full pcols scols eid e' hl
      show ((e'.partial_df.rows.length == e'.full_df.rows.length) &&
        (e'.score_df.rows.length == e'.full_df.rows.length)) = true
      have h1 : e'.partial_df.rows.length = e'.full_df.rows.length := by
        rw [hf]
        exact project_rows_length full pcols e'.partial_df hpd
      have h2 : e'.score_df.rows.length = e'.full_df.rows.length := by
        rw [hf]
        exact project_rows_length full scols e'.score_df hsd
      rw [h1, h2]
      simp
  · intro hpart
    unfold restoredColsPartition
    cases hl : load_state [StateElem.params p, StateElem.table full,
        StateElem.colNames pcols, StateElem.colNames scols] eid with
    | error err => rfl
    | ok e' =>
      obtain ⟨hf, hpd, hsd⟩ := load_state_ok_inv p full pcols scols eid e' hl
      show partitionB e'.partial_df.colNames e'.score_df.colNames e'.full_df.colNames = true
      rw [project_colNames full pcols e'.partial_df hpd,
          project_colNames full scols e'.score_df hsd, hf]
      exact hpart

/-- Witness for C7's amended invariant on a state whose persisted lists do
partition the full columns. -/
theorem c7_view_invariant_amended_witness :
    restoredRowsAligned [StateElem.params p7, StateElem.table full7,
      StateElem.colNames ["a"], StateElem.colNames ["b"]] "id" = true ∧
    restoredColsPartition [StateElem.params p7, StateElem.table full7,
      StateElem.colNames ["a"], StateElem.colNames ["b"]] "id" = true :=
  ⟨(c7_view_invariant_amended p7 full7 ["a"] ["b"] "id").1,
   (c7_view_invariant_amended p7 full7 ["a"] ["b"] "id").2 (by decide)⟩
